import Mathlib

/-!
Verification of the sensitivity-sampler program (`generate_plot.py`).

The computational core is a single pure function `calculate_overlap`
(degree-to-radian conversion, a degenerate-angle floor guard, and the
formula `t² · h / sin θ`), together with a sweep of that function over
`np.linspace(1, 90, 500)`.  We embed the core over the real numbers:
the "infinite" sentinel `float('inf')` becomes an explicit constructor
of a `Volume` type, and the list comprehension becomes `List.map`.
-/

namespace GeneratePlot

open Real

set_option maxRecDepth 4000

/-- The result of one evaluation: either the degenerate "infinite"
sentinel (the code's `float('inf')`) or a finite real volume. -/
inductive Volume where
  | infinite : Volume
  | finite : ℝ → Volume

/-- Ordering on results, with the "infinite" sentinel as the top
element; used to state monotonicity of the sweep. -/
def Volume.le : Volume → Volume → Prop
  | _, .infinite => True
  | .infinite, .finite _ => False
  | .finite x, .finite y => x ≤ y

/-- The degenerate-angle floor from line 7 of the source: `0.1` degrees. -/
def degenerate_floor : ℝ := 0.1

/-- Default `thickness` parameter of `calculate_overlap` (source line 5). -/
def default_thickness : ℝ := 0.225

/-- Default `height` parameter of `calculate_overlap` (source line 5). -/
def default_height : ℝ := 3.0

/-- `np.radians`: degrees to radians via the factor π/180. -/
noncomputable def radians (deg : ℝ) : ℝ := deg * (Real.pi / 180)

/-- `calculate_overlap(theta_deg, thickness=0.225, height=3.0)`:
if `theta_deg < 0.1` return the infinite sentinel, otherwise
`thickness**2 * height / sin(radians(theta_deg))`. -/
noncomputable def calculate_overlap (theta_deg : ℝ)
    (thickness : ℝ := default_thickness) (height : ℝ := default_height) :
    Volume :=
  if theta_deg < degenerate_floor then .infinite
  else .finite ((thickness ^ 2 * height) / Real.sin (radians theta_deg))

/-- `np.linspace(start, stop, num)`: `num` evenly spaced points,
point `i` being `start + (stop - start) / (num - 1) * i`. -/
noncomputable def linspace (start stop : ℝ) (num : ℕ) : List ℝ :=
  (List.range num).map (fun i : ℕ => start + (stop - start) / ((num : ℝ) - 1) * (i : ℝ))

/-- `angles = np.linspace(1, 90, 500)` (source line 14). -/
noncomputable def angles : List ℝ := linspace 1 90 500

/-- `volumes = [calculate_overlap(a) for a in angles]` (source line 15). -/
noncomputable def volumes : List Volume := angles.map (fun a => calculate_overlap a)

/-- The spec's `sweep`: one `(angle, volume)` Sample per domain point,
in order (the program's `angles`/`volumes` pairing fed to `plt.plot`). -/
noncomputable def sweep (domain : List ℝ) (thickness height : ℝ) :
    List (ℝ × Volume) :=
  domain.map (fun a => (a, calculate_overlap a thickness height))

/-- The program's own sample sequence: the sweep of `angles` with the
default physical parameters. -/
noncomputable def samples : List (ℝ × Volume) :=
  sweep angles default_thickness default_height

/-- Sine of the converted angle is strictly positive for degree
angles strictly between 0 and 180. -/
lemma sin_radians_pos {θ : ℝ} (h0 : 0 < θ) (h180 : θ < 180) :
    0 < Real.sin (radians θ) := by
  apply Real.sin_pos_of_pos_of_lt_pi
  · exact mul_pos h0 (div_pos Real.pi_pos (by norm_num))
  · have hπ : radians 180 = Real.pi := by
      unfold radians; field_simp
    calc radians θ < radians 180 := by
          unfold radians
          exact mul_lt_mul_of_pos_right h180 (div_pos Real.pi_pos (by norm_num))
      _ = Real.pi := hπ

/-- `radians 90 = π / 2`. -/
lemma radians_ninety : radians 90 = Real.pi / 2 := by
  unfold radians; ring

lemma angles_length : angles.length = 500 := by
  rw [angles, linspace, List.length_map, List.length_range]

/-- Closed form for the i-th point of the program's angle grid. -/
lemma angles_get (i : ℕ) (hi : i < angles.length) :
    angles.get ⟨i, hi⟩ = 1 + 89 / 499 * (i : ℝ) := by
  rw [List.get_eq_getElem]
  simp only [angles, linspace, List.getElem_map, List.getElem_range]
  norm_num

/-- Every point of the program's angle grid lies in `[1, 90]`. -/
lemma angles_mem_range (i : Fin angles.length) :
    1 ≤ angles.get i ∧ angles.get i ≤ 90 := by
  rcases i with ⟨i, hi⟩
  have hi' : i < 500 := by rwa [angles_length] at hi
  rw [angles_get i hi]
  clear hi
  constructor
  · have : (0 : ℝ) ≤ 89 / 499 * i := by positivity
    linarith
  · have hile : (i : ℝ) ≤ 499 := by
      have : i ≤ 499 := by omega
      exact_mod_cast this
    nlinarith

/-- Unfolding `calculate_overlap` past the floor guard. -/
lemma overlap_eval {θ t h : ℝ} (hθ : ¬ θ < degenerate_floor) :
    calculate_overlap θ t h = Volume.finite (t ^ 2 * h / Real.sin (radians θ)) := by
  rw [calculate_overlap, if_neg hθ]

/-- Unfolding `calculate_overlap` on the degenerate branch. -/
lemma overlap_eval_degenerate {θ t h : ℝ} (hθ : θ < degenerate_floor) :
    calculate_overlap θ t h = Volume.infinite := by
  rw [calculate_overlap, if_pos hθ]

/-- Positivity of the overlap formula for non-degenerate angles below 180°. -/
lemma overlap_value_pos {θ t h : ℝ} (h0 : 0 < θ) (h180 : θ < 180)
    (ht : 0 < t) (hh : 0 < h) :
    0 < t ^ 2 * h / Real.sin (radians θ) := by
  have hs := sin_radians_pos h0 h180
  positivity

lemma samples_length_eq : samples.length = angles.length := by
  rw [samples, sweep, List.length_map]

lemma samples_get (i : ℕ) (hi : i < samples.length) (hi' : i < angles.length) :
    samples.get ⟨i, hi⟩ =
      (angles.get ⟨i, hi'⟩,
        calculate_overlap (angles.get ⟨i, hi'⟩) default_thickness default_height) := by
  rw [List.get_eq_getElem, List.get_eq_getElem]
  simp only [samples, sweep, List.getElem_map]

lemma volumes_length_eq : volumes.length = angles.length := by
  rw [volumes, List.length_map]

lemma volumes_get (i : ℕ) (hi : i < volumes.length) (hi' : i < angles.length) :
    volumes.get ⟨i, hi⟩ =
      calculate_overlap (angles.get ⟨i, hi'⟩) default_thickness default_height := by
  rw [List.get_eq_getElem, List.get_eq_getElem]
  simp only [volumes, List.getElem_map]

/-- C1 (counterexample): at `angle_degrees = 270 ≥ 0.1` the guard is passed but
`sin` is `-1`, so `calculate_overlap` returns the negative value `-0.151875`,
not a strictly positive one — the claim quantified over all reals `≥ 0.1` fails. -/
theorem calculate_overlap_pos_fails_at_270 :
    calculate_overlap 270 default_thickness default_height =
      Volume.finite (-0.151875) ∧ ((-0.151875 : ℝ) < 0) := by
  constructor
  · rw [overlap_eval (by norm_num [degenerate_floor])]
    have hr : radians 270 = Real.pi / 2 + Real.pi := by unfold radians; ring
    rw [hr, Real.sin_add_pi, Real.sin_pi_div_two]
    congr 1
    norm_num [default_thickness, default_height]
  · norm_num

/-- C1 (amended): for every `angle_degrees` with
`degenerate_floor ≤ angle_degrees < 180` and positive `thickness`, `height`,
`calculate_overlap` returns the finite, strictly positive value
`thickness² · height / sin(radians angle_degrees)`. -/
theorem calculate_overlap_formula_pos (θ t h : ℝ)
    (hθ : degenerate_floor ≤ θ) (hθ' : θ < 180) (ht : 0 < t) (hh : 0 < h) :
    calculate_overlap θ t h = Volume.finite (t ^ 2 * h / Real.sin (radians θ)) ∧
    0 < t ^ 2 * h / Real.sin (radians θ) := by
  have h0 : (0 : ℝ) < θ := lt_of_lt_of_le (by norm_num [degenerate_floor]) hθ
  exact ⟨overlap_eval (not_lt.mpr hθ), overlap_value_pos h0 hθ' ht hh⟩

theorem calculate_overlap_formula_pos_witness :
    calculate_overlap 90 default_thickness default_height =
      Volume.finite (default_thickness ^ 2 * default_height / Real.sin (radians 90)) ∧
    0 < default_thickness ^ 2 * default_height / Real.sin (radians 90) :=
  calculate_overlap_formula_pos 90 default_thickness default_height
    (by norm_num [degenerate_floor]) (by norm_num)
    (by norm_num [default_thickness]) (by norm_num [default_height])

/-- C2: for every `angle_degrees` strictly below the degenerate floor,
`calculate_overlap` returns the "infinite" sentinel (and, being a total
function into `Volume`, signals no error). -/
theorem calculate_overlap_degenerate (θ t h : ℝ) (hθ : θ < degenerate_floor) :
    calculate_overlap θ t h = Volume.infinite :=
  overlap_eval_degenerate hθ

theorem calculate_overlap_degenerate_witness :
    calculate_overlap 0.05 default_thickness default_height = Volume.infinite :=
  calculate_overlap_degenerate 0.05 default_thickness default_height
    (by norm_num [degenerate_floor])

/-- C3: `calculate_overlap` is total over the reals: for every real input it
returns a `Volume` — either the infinite sentinel or the finite formula value —
and no error/exception case exists. -/
theorem calculate_overlap_total (θ t h : ℝ) :
    calculate_overlap θ t h = Volume.infinite ∨
      calculate_overlap θ t h = Volume.finite (t ^ 2 * h / Real.sin (radians θ)) := by
  by_cases hθ : θ < degenerate_floor
  · exact Or.inl (overlap_eval_degenerate hθ)
  · exact Or.inr (overlap_eval hθ)

/-- C4: with thickness and height fixed (nonnegative), `calculate_overlap` is
monotonically non-increasing on angles from just above 0° up to 90° (with the
infinite sentinel as top value): for `0 < a₁ ≤ a₂ ≤ 90` the result at `a₂` is
at most the result at `a₁`; in particular the minimum over the range is at 90°. -/
theorem calculate_overlap_antitone (a1 a2 t h : ℝ)
    (h1 : 0 < a1) (h12 : a1 ≤ a2) (h90 : a2 ≤ 90) (hh : 0 ≤ h) :
    Volume.le (calculate_overlap a2 t h) (calculate_overlap a1 t h) := by
  rcases lt_or_le a1 degenerate_floor with hf1 | hf1
  · rw [overlap_eval_degenerate hf1]
    cases calculate_overlap a2 t h <;> simp [Volume.le]
  · have hf2 : ¬ a2 < degenerate_floor := not_lt.mpr (le_trans hf1 h12)
    rw [overlap_eval (not_lt.mpr hf1), overlap_eval hf2]
    show t ^ 2 * h / Real.sin (radians a2) ≤ t ^ 2 * h / Real.sin (radians a1)
    have hs1 : 0 < Real.sin (radians a1) := sin_radians_pos h1 (by linarith)
    have hmono : Real.sin (radians a1) ≤ Real.sin (radians a2) := by
      have hr1 : 0 ≤ radians a1 := by
        unfold radians; exact mul_nonneg h1.le (by positivity)
      have hr2 : radians a2 ≤ Real.pi / 2 := by
        rw [← radians_ninety]
        unfold radians
        exact mul_le_mul_of_nonneg_right h90 (by positivity)
      have hr12 : radians a1 ≤ radians a2 := by
        unfold radians
        exact mul_le_mul_of_nonneg_right h12 (by positivity)
      exact Real.sin_le_sin_of_le_of_le_pi_div_two (by linarith [Real.pi_pos]) hr2 hr12
    exact div_le_div_of_nonneg_left (by positivity) hs1 hmono

theorem calculate_overlap_antitone_witness :
    Volume.le (calculate_overlap 90 default_thickness default_height)
      (calculate_overlap 30 default_thickness default_height) :=
  calculate_overlap_antitone 30 90 default_thickness default_height
    (by norm_num) (by norm_num) (by norm_num) (by norm_num [default_height])

/-- C5: at 90° the sine is exactly 1, so `calculate_overlap 90 t h = t² · h`;
with the published parameters this is exactly `0.151875`. -/
theorem calculate_overlap_at_ninety (t h : ℝ) :
    calculate_overlap 90 t h = Volume.finite (t ^ 2 * h) ∧
    calculate_overlap 90 default_thickness default_height =
      Volume.finite 0.151875 := by
  have key : ∀ t' h' : ℝ, calculate_overlap 90 t' h' = Volume.finite (t' ^ 2 * h') := by
    intro t' h'
    rw [overlap_eval (by norm_num [degenerate_floor]), radians_ninety,
      Real.sin_pi_div_two, div_one]
  refine ⟨key t h, ?_⟩
  rw [key]
  congr 1
  norm_num [default_thickness, default_height]

/-- C6: `sweep` produces exactly one Sample per domain point, preserving input
order: the output length equals the input length and the sequence of output
angles is the domain itself (so the i-th angle is the i-th domain element). -/
theorem sweep_preserves_domain (domain : List ℝ) (t h : ℝ) :
    (sweep domain t h).length = domain.length ∧
    (sweep domain t h).map Prod.fst = domain := by
  constructor
  · rw [sweep, List.length_map]
  · rw [sweep, List.map_map]
    have hcomp : (Prod.fst ∘ fun a : ℝ => (a, calculate_overlap a t h)) = id := rfl
    rw [hcomp, List.map_id]

/-- C7: `sweep` is deterministic — two invocations with equal domains and
equal parameters produce exactly equal output sequences. -/
theorem sweep_deterministic (d1 d2 : List ℝ) (t1 t2 h1 h2 : ℝ)
    (hd : d1 = d2) (ht : t1 = t2) (hh : h1 = h2) :
    sweep d1 t1 h1 = sweep d2 t2 h2 := by
  rw [hd, ht, hh]

theorem sweep_deterministic_witness :
    sweep [90] default_thickness default_height =
      sweep [90] default_thickness default_height :=
  sweep_deterministic [90] [90] default_thickness default_thickness
    default_height default_height rfl rfl rfl

/-- C8: every Sample of the program's sweep has its angle in the configured
domain `[1, 90]`, and its volume is either the infinite sentinel or a finite
nonnegative real (never negative; NaN does not exist in this real-valued
model). -/
theorem samples_invariant (i : Fin samples.length) :
    (1 ≤ (samples.get i).1 ∧ (samples.get i).1 ≤ 90) ∧
    ((samples.get i).2 = Volume.infinite ∨
      ∃ v, (samples.get i).2 = Volume.finite v ∧ 0 ≤ v) := by
  rcases i with ⟨i, hi⟩
  have hi' : i < angles.length := by rwa [samples_length_eq] at hi
  rw [samples_get i hi hi']
  obtain ⟨ha1, ha90⟩ := angles_mem_range ⟨i, hi'⟩
  refine ⟨⟨ha1, ha90⟩, Or.inr ?_⟩
  refine ⟨default_thickness ^ 2 * default_height /
    Real.sin (radians (angles.get ⟨i, hi'⟩)), ?_, ?_⟩
  · exact overlap_eval (by rw [degenerate_floor]; intro hc; linarith)
  · have := overlap_value_pos (θ := angles.get ⟨i, hi'⟩)
      (by linarith) (by linarith)
      (t := default_thickness) (by norm_num [default_thickness])
      (h := default_height) (by norm_num [default_height])
    linarith

/-- C9: the published configuration: the angle sweep is `linspace 1 90 500`
(500 evenly spaced points, point i being `1 + (90-1)/(500-1)·i`, hence from 1
to 90), thickness 0.225, height 3.0, and a degenerate floor of 0.1 degrees. -/
theorem published_configuration :
    degenerate_floor = 0.1 ∧ default_thickness = 0.225 ∧ default_height = 3.0 ∧
    angles = linspace 1 90 500 ∧ angles.length = 500 ∧
    (∀ i : Fin angles.length,
      angles.get i = 1 + (90 - 1) / (500 - 1) * ((i : ℕ) : ℝ)) := by
  refine ⟨rfl, rfl, rfl, rfl, angles_length, ?_⟩
  rintro ⟨i, hi⟩
  rw [angles_get i hi]
  norm_num

/-- C10: under the published sweep (`angles`, 500 points, all ≥ 1 > 0.1), the
degenerate branch is never taken: every one of the 500 produced volumes is a
finite strictly positive number. -/
theorem volumes_all_finite_pos :
    volumes.length = 500 ∧
    ∀ i : Fin volumes.length, ∃ v, volumes.get i = Volume.finite v ∧ 0 < v := by
  refine ⟨by rw [volumes_length_eq, angles_length], ?_⟩
  rintro ⟨i, hi⟩
  have hi' : i < angles.length := by rwa [volumes_length_eq] at hi
  rw [volumes_get i hi hi']
  obtain ⟨ha1, ha90⟩ := angles_mem_range ⟨i, hi'⟩
  refine ⟨default_thickness ^ 2 * default_height /
    Real.sin (radians (angles.get ⟨i, hi'⟩)), ?_, ?_⟩
  · exact overlap_eval (by rw [degenerate_floor]; intro hc; linarith)
  · exact overlap_value_pos (by linarith) (by linarith)
      (by norm_num [default_thickness]) (by norm_num [default_height])

end GeneratePlot
